import Mathlib

set_option maxHeartbeats 1000000

/-
Verification development for the database command module of the openag
command-line tool (openag/cli/db).  The Python source is shallowly
embedded here:

  * a JSON value is a `Val` (strings, integers and objects cover every
    shape the claims need);
  * a Python dict with string keys is an association list; `obj[k]` is
    `alook obj k`, `obj[k] = v` is `aset obj k v`, `dict.update` is
    `dupdate`, and Python dict equality (order insensitive on keys) is
    `deq`;
  * the couch database is a `DB` (documents keyed by id, plus a counter
    the server uses to assign fresh revision tokens on every put);
  * side effects (git clone, manifest read, configuration PUT, sleep,
    database creation) are reified as effect lists, and a raised Python
    exception is an error value threaded to the caller.

Nested objects are compared structurally; records themselves are
compared with the order-insensitive `deq`, which is where every
comparison in the source happens.
-/

inductive Val where
  | str : String → Val
  | num : Int → Val
  | obj : List (String × Val) → Val

mutual

def Val.decEq : (a b : Val) → Decidable (a = b)
  | Val.str x, Val.str y =>
    if h : x = y then isTrue (by rw [h]) else isFalse (fun hh => h (by injection hh))
  | Val.num x, Val.num y =>
    if h : x = y then isTrue (by rw [h]) else isFalse (fun hh => h (by injection hh))
  | Val.obj x, Val.obj y =>
    match Val.decEqList x y with
    | isTrue h => isTrue (by rw [h])
    | isFalse h => isFalse (fun hh => h (by injection hh))
  | Val.str _, Val.num _ => isFalse (fun hh => Val.noConfusion hh)
  | Val.str _, Val.obj _ => isFalse (fun hh => Val.noConfusion hh)
  | Val.num _, Val.str _ => isFalse (fun hh => Val.noConfusion hh)
  | Val.num _, Val.obj _ => isFalse (fun hh => Val.noConfusion hh)
  | Val.obj _, Val.str _ => isFalse (fun hh => Val.noConfusion hh)
  | Val.obj _, Val.num _ => isFalse (fun hh => Val.noConfusion hh)

def Val.decEqList : (a b : List (String × Val)) → Decidable (a = b)
  | [], [] => isTrue rfl
  | [], _ :: _ => isFalse (fun hh => List.noConfusion hh)
  | _ :: _, [] => isFalse (fun hh => List.noConfusion hh)
  | (k1, v1) :: r1, (k2, v2) :: r2 =>
    if hk : k1 = k2 then
      match Val.decEq v1 v2 with
      | isTrue hv =>
        match Val.decEqList r1 r2 with
        | isTrue hr => isTrue (by rw [hk, hv, hr])
        | isFalse hr => isFalse (fun hh => hr (by injection hh))
      | isFalse hv => isFalse (fun hh => hv (by cases hh; rfl))
    else
      isFalse (fun hh => hk (by cases hh; rfl))

end

instance : DecidableEq Val := Val.decEq

/-- A Python dict with string keys, as an association list. -/
abbrev Record := List (String × Val)

/-- Python `d[k]` as a total lookup returning `none` when the key is absent. -/
def alook {β : Type} : List (String × β) → String → Option β
  | [], _ => none
  | (k1, v) :: r, k => if k1 = k then some v else alook r k

/-- Python `d[k] = v`: replace the first binding of `k`, or append a new one. -/
def aset {β : Type} : List (String × β) → String → β → List (String × β)
  | [], k, v => [(k, v)]
  | (k1, v1) :: r, k, v => if k1 = k then (k, v) :: r else (k1, v1) :: aset r k v

/-- Python `d.update(info)`: overlay every binding of `info` on top of `d`. -/
def dupdate (d info : Record) : Record :=
  info.foldl (fun acc p => aset acc p.1 p.2) d

/-- Python dict equality on records: the two dicts bind the same keys to
equal values (insertion order is irrelevant). -/
def deq (a b : Record) : Bool :=
  ((a.map Prod.fst) ++ (b.map Prod.fst)).all fun k => decide (alook a k = alook b k)

/-- Dict equality ignoring one distinguished key (used with the revision
token key to state the content-equality checks of the spec). -/
def deqExcept (ex : String) (a b : Record) : Bool :=
  (((a.map Prod.fst) ++ (b.map Prod.fst)).filter fun k => decide (k ≠ ex)).all
    fun k => decide (alook a k = alook b k)

/- Couch database model: documents keyed by string id.  The server
assigns a fresh revision token on every put (nextRev is the source of
fresh tokens), storing the written document with its `_rev` field set to
that token. -/

structure DB where
  docs : List (String × Record)
  nextRev : Nat
deriving DecidableEq

def revVal (n : Nat) : Val := Val.str (String.append "rev-" (toString n))

def dbGet (db : DB) (id : String) : Option Record := alook db.docs id

def dbPut (db : DB) (id : String) (doc : Record) : DB :=
  ⟨aset db.docs id (aset doc "_rev" (revVal db.nextRev)), db.nextRev + 1⟩

/-- Server invariant: every stored document carries a revision token. -/
def dbHasRevs (db : DB) : Prop := ∀ p ∈ db.docs, (alook p.2 "_rev").isSome = true

/- Record synchronizer, embedding update_record (lines 159-176 of
openag/cli/db).  The outside world of the git subprocess and of the
cloned working tree is a GitEnv: cloneOk says whether `git clone -b
branch url` succeeds (the source ignores the subprocess return code),
and manifest gives the parsed content of `<clone dir>/module.json` when
that file can be opened and parsed, `none` otherwise.  A raised Python
exception is an error value; the effect list records the issued clone
and manifest-read attempts. -/

inductive SyncErr where
  | keyError
  | typeError
  | manifestError
deriving DecidableEq

inductive SyncEffect where
  | clone (url branch : String) (ok : Bool)
  | readManifest (url branch : String)
deriving DecidableEq

structure GitEnv where
  cloneOk : String → String → Bool
  manifest : String → String → Option Record

/-- A failed clone leaves no working tree, so the manifest file of that
clone directory cannot be read. -/
def GitEnv.Consistent (env : GitEnv) : Prop :=
  ∀ u b, env.cloneOk u b = false → env.manifest u b = none

/-- Embedding of `repo.get("branch", "master")` restricted to the string
values the later subprocess call accepts; a non-string branch value makes
the subprocess call raise, which is the `none` case. -/
def branchOf (repo : Record) : Option String :=
  match alook repo "branch" with
  | none => some "master"
  | some (Val.str b) => some b
  | some _ => none

/-- update_record (source lines 159-176): passthrough when there is no
repository field or its type is not the string "git"; otherwise clone,
read the manifest and overlay every manifest key onto a copy of the
record with dict update. -/
def update_record (env : GitEnv) (obj : Record) :
    Except SyncErr Record × List SyncEffect :=
  match alook obj "repository" with
  | none => (Except.ok obj, [])
  | some (Val.str _) => (Except.error SyncErr.typeError, [])
  | some (Val.num _) => (Except.error SyncErr.typeError, [])
  | some (Val.obj repo) =>
    match alook repo "type" with
    | none => (Except.error SyncErr.keyError, [])
    | some t =>
      if t = Val.str "git" then
        match alook repo "url" with
        | none => (Except.error SyncErr.keyError, [])
        | some (Val.num _) => (Except.error SyncErr.typeError, [])
        | some (Val.obj _) => (Except.error SyncErr.typeError, [])
        | some (Val.str u) =>
          match branchOf repo with
          | none => (Except.error SyncErr.typeError, [])
          | some b =>
            match env.manifest u b with
            | none =>
              (Except.error SyncErr.manifestError,
               [SyncEffect.clone u b (env.cloneOk u b), SyncEffect.readManifest u b])
            | some info =>
              (Except.ok (dupdate obj info),
               [SyncEffect.clone u b (env.cloneOk u b), SyncEffect.readManifest u b])
      else (Except.ok obj, [])

inductive BatchErr where
  | notFound
  | keyError
  | sync (e : SyncErr)
deriving DecidableEq

/-- Loop body of update_module_types for one document id (source lines
192-196): fetch the stored record, synchronize it, restore the stored
revision token, and write back only when the result differs.  The model
wrapper FirmwareModuleType is taken as the identity on the record
content; that class lives outside this module and, per the spec, the
batch driver simply runs synchronize on the fetched record. -/
def syncOne (env : GitEnv) (db : DB) (id : String) :
    DB × List (String × Record) × Option BatchErr :=
  match dbGet db id with
  | none => (db, [], some BatchErr.notFound)
  | some obj =>
    match (update_record env obj).1 with
    | Except.error e => (db, [], some (BatchErr.sync e))
    | Except.ok new0 =>
      match alook obj "_rev" with
      | none => (db, [], some BatchErr.keyError)
      | some rev =>
        let new_obj := aset new0 "_rev" rev
        if deq new_obj obj then (db, [], none)
        else (dbPut db id new_obj, [(id, new_obj)], none)

structure BatchResult where
  db : DB
  writes : List (String × Record)
  err : Option BatchErr
  scratchRemoved : Bool
deriving DecidableEq

/-- Embedding of `_id.startswith("_")`: document ids with the reserved
underscore prefix denote internal entries. -/
def startsWithUnderscore (id : String) : Bool :=
  match id.toList with
  | [] => false
  | c :: _ => decide (c = '_')

/-- Iteration of update_module_types over the document ids (source lines
189-197).  Ids with the reserved underscore prefix are skipped.  An
uncaught exception aborts the loop before the final rmtree call, so the
scratch directory is removed exactly on the run that reaches the end of
the loop. -/
def umtGo (env : GitEnv) : List String → DB → List (String × Record) → BatchResult
  | [], db, ws => ⟨db, ws, none, true⟩
  | id :: rest, db, ws =>
    if startsWithUnderscore id then umtGo env rest db ws
    else
      match syncOne env db id with
      | (db1, w, some e) => ⟨db1, ws ++ w, some e, false⟩
      | (db1, w, none) => umtGo env rest db1 (ws ++ w)

/-- update_module_types (source lines 178-197). -/
def update_module_types (env : GitEnv) (db : DB) : BatchResult :=
  umtGo env (db.docs.map Prod.fst) db []

/- Fixture loader, embedding load_fixture (source lines 132-157). -/

inductive LoadErr where
  | keyError
  | badId
  | noSuchDb
deriving DecidableEq

/-- The identity of a fixture record: its "_id" value when that value is
a string usable as a document id. -/
def itemId (r : Record) : Option String :=
  match alook r "_id" with
  | some (Val.str s) => some s
  | _ => none

/-- Body of the fixture loop for one record (source lines 150-157): read
the id, and if the id is already stored, copy the stored revision token
into the incoming record and skip the write when the two dicts are then
equal; otherwise write.  The second component lists the write issued for
this record (the document as sent to the server). -/
def loadItem (db : DB) (item0 : Record) :
    DB × List (String × Record) × Option LoadErr :=
  match alook item0 "_id" with
  | none => (db, [], some LoadErr.keyError)
  | some (Val.num _) => (db, [], some LoadErr.badId)
  | some (Val.obj _) => (db, [], some LoadErr.badId)
  | some (Val.str id) =>
    match dbGet db id with
    | some old =>
      match alook old "_rev" with
      | none => (db, [], some LoadErr.keyError)
      | some rev =>
        let item := aset item0 "_rev" rev
        if deq item old then (db, [], none)
        else (dbPut db id item, [(id, item)], none)
    | none => (dbPut db id item0, [(id, item0)], none)

/-- The fixture loop over the records of one database (source lines
147-157); an uncaught exception aborts the run, keeping the writes
already applied. -/
def loadItems : DB → List Record → DB × List (String × Record) × Option LoadErr
  | db, [] => (db, [], none)
  | db, it :: rest =>
    match loadItem db it with
    | (db1, w1, some e) => (db1, w1, some e)
    | (db1, w1, none) =>
      match loadItems db1 rest with
      | (db2, w2, e2) => (db2, w1 ++ w2, e2)

abbrev Server := List (String × DB)

def serverGet (s : Server) (n : String) : Option DB := alook s n

def serverSet (s : Server) (n : String) (db : DB) : Server := aset s n db

def serverWF (s : Server) : Prop := ∀ q ∈ s, dbHasRevs q.2

/-- load_fixture (source lines 132-157): for every database named in the
fixture, run the per-record loop against that database.  Looking up a
database name that does not exist on the server raises.  The middle
component flattens the issued writes as (database, id, document). -/
def load_fixture (s : Server) :
    List (String × List Record) → Server × List (String × String × Record) × Option LoadErr
  | [] => (s, [], none)
  | (n, its) :: rest =>
    match serverGet s n with
    | none => (s, [], some LoadErr.noSuchDb)
    | some db =>
      match loadItems db its with
      | (db1, w1, some e) =>
        (serverSet s n db1, w1.map (fun p => (n, p.1, p.2)), some e)
      | (db1, w1, none) =>
        match load_fixture (serverSet s n db1) rest with
        | (s2, w2, e2) => (s2, w1.map (fun p => (n, p.1, p.2)) ++ w2, e2)

/- Server configuration applier, embedding the loop of init (source
lines 44-76), and init itself (source lines 24-97). -/

inductive CfgEffect where
  | put (body : String)
  | sleep
deriving DecidableEq

/-- The only failure of the loop body: when the PUT status is not 200
the source formats an error message that reads the undefined name res,
so Python raises an uncaught NameError there. -/
inductive CfgErr where
  | nameError
deriving DecidableEq

/-- Embedding of `'"{}"'.format(value.replace('"', '\\"'))`: quote the
value, escaping every double-quote character with a backslash. -/
def escapeQuotes (s : String) : String :=
  String.mk (s.toList.foldr (fun c acc => if c = '\"' then '\\' :: '\"' :: acc else c :: acc) [])

def desiredVal (value : String) : String :=
  String.append "\"" (String.append (escapeQuotes value) "\"")

/-- Loop body of the configuration applier (source lines 53-76) for one
parameter: current is the stripped GET body (none when the GET answered
not-found), status the status code the PUT would answer.  No PUT is
issued when the current value already equals the quoted desired value;
otherwise the PUT is issued and, when its status is 200, the mandated
one-second pause follows.  A status other than 200 reaches the undefined
name res, raising before the pause. -/
def applyConfigItem (current : Option String) (value : String) (status : Int) :
    List CfgEffect × Option CfgErr :=
  if current = some (desiredVal value) then ([], none)
  else if status = 200 then ([CfgEffect.put (desiredVal value), CfgEffect.sleep], none)
  else ([CfgEffect.put (desiredVal value)], some CfgErr.nameError)

inductive InitEffect where
  | putConfig (sect param body : String)
  | sleepEff
  | createDb (name : String)
  | pushDesignDocs
  | replicateGlobal
  | replicatePerFarm
  | setLocalUrl (url : String)
deriving DecidableEq

def liftCfg (sect param : String) : CfgEffect → InitEffect
  | CfgEffect.put b => InitEffect.putConfig sect param b
  | CfgEffect.sleep => InitEffect.sleepEff

/-- The whole configuration loop (source lines 49-76): items are
(section, parameter, value) triples; cur gives the GET answer and st the
PUT status per section and parameter.  An uncaught exception in one
iteration aborts the loop, keeping the effects already issued. -/
def applyAllConfig :
    List (String × String × String) → (String → String → Option String) →
      (String → String → Int) → List InitEffect × Option CfgErr
  | [], _, _ => ([], none)
  | (sect, par, v) :: rest, cur, st =>
    match applyConfigItem (cur sect par) v (st sect par) with
    | (es, some e) => (es.map (liftCfg sect par), some e)
    | (es, none) =>
      match applyAllConfig rest cur st with
      | (es2, e2) => (es.map (liftCfg sect par) ++ es2, e2)

inductive InitErr where
  | conflict
  | configFailure (e : CfgErr)
deriving DecidableEq

/-- Inputs of init: the db_url argument, the stored configuration (the
local server url, the cloud server url and farm name, where none stands
for an unset or empty, hence falsy, entry), the configuration triples
produced for the api url, and the server answers for the configuration
GETs and PUTs. -/
structure InitArgs where
  dbUrl : String
  oldLocalUrl : Option String
  cloudUrl : Option String
  farmName : Option String
  dbConfig : List (String × String × String)
  currentVal : String → String → Option String
  putStatus : String → String → Int

/-- Source lines 34-35: `old_db_url and old_db_url != db_url`. -/
def conflictCheck (old : Option String) (new : String) : Bool :=
  match old with
  | none => false
  | some u => decide (u ≠ new)

/-- init (source lines 24-97): fail on a conflicting stored local server
url before any effect; then apply the configuration items, create the
databases, push design documents, set up replication when a cloud server
(and farm name) is configured, and finally store the local server url. -/
def init (a : InitArgs) (allDbs : List String) : List InitEffect × Option InitErr :=
  if conflictCheck a.oldLocalUrl a.dbUrl then ([], some InitErr.conflict)
  else
    match applyAllConfig a.dbConfig a.currentVal a.putStatus with
    | (es, some e) => (es, some (InitErr.configFailure e))
    | (es, none) =>
      (es ++ allDbs.map InitEffect.createDb ++ [InitEffect.pushDesignDocs]
        ++ (match a.cloudUrl with
            | some _ =>
              InitEffect.replicateGlobal ::
                (match a.farmName with
                 | some _ => [InitEffect.replicatePerFarm]
                 | none => [])
            | none => [])
        ++ [InitEffect.setLocalUrl a.dbUrl], none)

/- Helper lemmas characterizing the loop bodies. -/

instance (db : DB) : Decidable (dbHasRevs db) := by
  unfold dbHasRevs
  infer_instance

instance (s : Server) : Decidable (serverWF s) := by
  unfold serverWF
  infer_instance

/- Concrete environments, records and stores used by the witness and
counterexample theorems. -/

def isPut : CfgEffect → Bool
  | CfgEffect.put _ => true
  | CfgEffect.sleep => false

def c1env : GitEnv :=
  ⟨fun _ _ => true, fun _ _ => some [("_id", Val.str "evil"), ("_rev", Val.str "bad")]⟩

def c1obj : Record :=
  [("_id", Val.str "m1"),
   ("repository", Val.obj [("type", Val.str "git"), ("url", Val.str "u")])]

def c1envW : GitEnv := ⟨fun _ _ => true, fun _ _ => some [("version", Val.str "2")]⟩

def c1objW : Record :=
  [("_id", Val.str "m1"), ("_rev", Val.str "r0"),
   ("repository", Val.obj [("type", Val.str "git"), ("url", Val.str "u")])]

def c1envB : GitEnv := ⟨fun _ _ => true, fun _ _ => none⟩

def c1dbW : DB := ⟨[("m", [("_id", Val.str "m"), ("_rev", Val.str "r0")])], 0⟩

def c2it : Record := [("_id", Val.str "a"), ("val", Val.str "1")]

def c2old : Record := [("_id", Val.str "a"), ("val", Val.str "1"), ("_rev", Val.str "r")]

def c2db : DB := ⟨[("a", c2old)], 0⟩

def c2env : GitEnv := ⟨fun _ _ => true, fun _ _ => none⟩

def c2objB : Record := [("_id", Val.str "b"), ("_rev", Val.str "s")]

def c2dbB : DB := ⟨[("b", c2objB)], 0⟩

def c3server : Server := [("d", ⟨[], 0⟩)]

def c3fixture : List (String × List Record) :=
  [("d", [[("_id", Val.str "a"), ("x", Val.str "1")],
          [("_id", Val.str "a"), ("x", Val.str "2")]])]

def c3fixtureW : List (String × List Record) :=
  [("d", [[("_id", Val.str "a"), ("x", Val.str "1")]])]

def c4env : GitEnv := ⟨fun _ _ => false, fun _ _ => none⟩

def c4db : DB :=
  ⟨[("m", [("_id", Val.str "m"), ("_rev", Val.str "r1"),
           ("repository", Val.obj [("type", Val.str "git"), ("url", Val.str "u")])])], 0⟩

def c5env : GitEnv := ⟨fun _ _ => true, fun _ _ => none⟩

def c5objA : Record := [("_id", Val.str "a")]

def c5objB : Record := [("repository", Val.obj [("type", Val.str "svn"), ("url", Val.str "u")])]

def c7env : GitEnv := ⟨fun _ _ => false, fun _ _ => none⟩

def c7db : DB :=
  ⟨[("k", [("_id", Val.str "k"), ("_rev", Val.str "r2"),
           ("repository", Val.obj [("type", Val.str "git"), ("url", Val.str "w")])])], 0⟩

def c9args : InitArgs :=
  ⟨"http://b:5984", some "http://a:5984", none, none, [], fun _ _ => none, fun _ _ => 200⟩

def c10env : GitEnv := ⟨fun _ _ => true, fun _ _ => none⟩

def c10objA : Record :=
  [("_id", Val.str "m1"), ("repository", Val.obj [("url", Val.str "u")])]

def c10objB : Record :=
  [("_id", Val.str "m1"), ("repository", Val.obj [("type", Val.str "git")])]

/- Lemmas about the dict operations. -/

theorem alook_aset_self {β : Type} (l : List (String × β)) (k : String) (v : β) :
    alook (aset l k v) k = some v := by
  induction l with
  | nil => simp [aset, alook]
  | cons p r ih =>
    by_cases h : p.1 = k
    · simp [aset, h, alook]
    · simp [aset, h, alook, ih]

theorem alook_aset_ne {β : Type} (l : List (String × β)) (k j : String) (v : β)
    (h : j ≠ k) : alook (aset l k v) j = alook l j := by
  induction l with
  | nil => simp [aset, alook, Ne.symm h]
  | cons p r ih =>
    by_cases hp : p.1 = k
    · simp [aset, hp, alook, Ne.symm h]
    · simp [aset, hp, alook, ih]

theorem alook_eq_none {β : Type} (l : List (String × β)) (k : String) :
    alook l k = none ↔ k ∉ l.map Prod.fst := by
  induction l with
  | nil => simp [alook]
  | cons p r ih =>
    by_cases h : p.1 = k
    · simp [alook, h]
    · simp [alook, h, ih, Ne.symm h]

theorem alook_mem {β : Type} (l : List (String × β)) (k : String) (v : β)
    (h : alook l k = some v) : (k, v) ∈ l := by
  induction l with
  | nil => simp [alook] at h
  | cons p r ih =>
    by_cases hk : p.1 = k
    · rw [alook, if_pos hk] at h
      have h2 : p = (k, v) := by
        cases p
        simp only [Option.some.injEq] at h
        simp_all
      rw [h2]
      exact List.mem_cons_self _ _
    · rw [alook, if_neg hk] at h
      exact List.mem_cons_of_mem _ (ih h)

theorem mem_aset {β : Type} (l : List (String × β)) (k : String) (v : β)
    (p : String × β) (h : p ∈ aset l k v) : p ∈ l ∨ p = (k, v) := by
  induction l with
  | nil => simp [aset] at h; simp [h]
  | cons q r ih =>
    by_cases hq : q.1 = k
    · rw [aset, if_pos hq] at h
      rcases List.mem_cons.1 h with h1 | h1
      · right; exact h1
      · left; exact List.mem_cons_of_mem _ h1
    · rw [aset, if_neg hq] at h
      rcases List.mem_cons.1 h with h1 | h1
      · left; exact List.mem_cons.2 (Or.inl h1)
      · rcases ih h1 with h2 | h2
        · left; exact List.mem_cons_of_mem _ h2
        · right; exact h2

theorem aset_self_of_alook {β : Type} (l : List (String × β)) (k : String) (v : β)
    (h : alook l k = some v) : aset l k v = l := by
  induction l with
  | nil => simp [alook] at h
  | cons p r ih =>
    by_cases hk : p.1 = k
    · rw [alook, if_pos hk] at h
      rw [aset, if_pos hk]
      cases p
      simp_all
    · rw [alook, if_neg hk] at h
      rw [aset, if_neg hk, ih h]

theorem alook_dupdate_none (d info : Record) (k : String)
    (h : alook info k = none) : alook (dupdate d info) k = alook d k := by
  induction info generalizing d with
  | nil => rfl
  | cons p r ih =>
    rw [alook] at h
    by_cases hp : p.1 = k
    · rw [if_pos hp] at h; exact absurd h (by simp)
    · rw [if_neg hp] at h
      show alook (dupdate (aset d p.1 p.2) r) k = alook d k
      rw [ih _ h, alook_aset_ne _ _ _ _ (fun hh => hp hh.symm)]

theorem deq_iff (a b : Record) : deq a b = true ↔ ∀ k, alook a k = alook b k := by
  unfold deq
  rw [List.all_eq_true]
  constructor
  · intro h k
    by_cases hk : k ∈ a.map Prod.fst ++ b.map Prod.fst
    · exact of_decide_eq_true (h k hk)
    · rw [List.mem_append] at hk
      push_neg at hk
      rw [(alook_eq_none a k).2 hk.1, (alook_eq_none b k).2 hk.2]
  · intro h k _
    exact decide_eq_true (h k)

theorem deqExcept_iff (ex : String) (a b : Record) :
    deqExcept ex a b = true ↔ ∀ k, k ≠ ex → alook a k = alook b k := by
  unfold deqExcept
  rw [List.all_eq_true]
  constructor
  · intro h k hke
    by_cases hk : k ∈ a.map Prod.fst ++ b.map Prod.fst
    · exact of_decide_eq_true (h k (List.mem_filter.2 ⟨hk, decide_eq_true hke⟩))
    · rw [List.mem_append] at hk
      push_neg at hk
      rw [(alook_eq_none a k).2 hk.1, (alook_eq_none b k).2 hk.2]
  · intro h k hk
    exact decide_eq_true (h k (of_decide_eq_true (List.mem_filter.1 hk).2))

theorem deq_aset_key (ex : String) (v : Val) (a b : Record)
    (hb : alook b ex = some v) :
    (deq (aset a ex v) b = true) ↔ (deqExcept ex a b = true) := by
  rw [deq_iff, deqExcept_iff]
  constructor
  · intro h k hk
    rw [← alook_aset_ne a ex k v hk]
    exact h k
  · intro h k
    by_cases hk : k = ex
    · subst hk
      rw [alook_aset_self, hb]
    · rw [alook_aset_ne a ex k v hk]
      exact h k hk

theorem dbGet_put_self (db : DB) (id : String) (doc : Record) :
    dbGet (dbPut db id doc) id = some (aset doc "_rev" (revVal db.nextRev)) := by
  simp [dbGet, dbPut, alook_aset_self]

theorem dbGet_put_ne (db : DB) (id j : String) (doc : Record) (h : j ≠ id) :
    dbGet (dbPut db id doc) j = dbGet db j := by
  simp [dbGet, dbPut, alook_aset_ne _ _ _ _ h]

theorem dbHasRevs_put (db : DB) (id : String) (doc : Record)
    (h : dbHasRevs db) : dbHasRevs (dbPut db id doc) := by
  intro p hp
  rcases mem_aset _ _ _ _ hp with h1 | h1
  · exact h p h1
  · rw [h1]
    simp [alook_aset_self]

theorem dbHasRevs_get (db : DB) (id : String) (r : Record)
    (hwf : dbHasRevs db) (h : dbGet db id = some r) :
    (alook r "_rev").isSome = true :=
  hwf (id, r) (alook_mem _ _ _ h)

theorem itemId_some (r : Record) (id : String) (h : itemId r = some id) :
    alook r "_id" = some (Val.str id) := by
  unfold itemId at h
  cases hv : alook r "_id" with
  | none => simp [hv] at h
  | some v =>
    cases v with
    | str s => simp [hv] at h; rw [h]
    | num n => simp [hv] at h
    | obj o => simp [hv] at h

theorem loadItem_found (db : DB) (it : Record) (id : String) (old : Record) (rev : Val)
    (hid : alook it "_id" = some (Val.str id))
    (hget : dbGet db id = some old)
    (hrev : alook old "_rev" = some rev) :
    loadItem db it =
      (if deq (aset it "_rev" rev) old then (db, [], none)
       else (dbPut db id (aset it "_rev" rev), [(id, aset it "_rev" rev)], none)) := by
  simp only [loadItem, hid, hget, hrev]

theorem loadItem_absent (db : DB) (it : Record) (id : String)
    (hid : alook it "_id" = some (Val.str id))
    (hget : dbGet db id = none) :
    loadItem db it = (dbPut db id it, [(id, it)], none) := by
  simp only [loadItem, hid, hget]

theorem syncOne_ok (env : GitEnv) (db : DB) (id : String) (obj new0 : Record) (rev : Val)
    (hget : dbGet db id = some obj)
    (hok : (update_record env obj).1 = Except.ok new0)
    (hrev : alook obj "_rev" = some rev) :
    syncOne env db id =
      (if deq (aset new0 "_rev" rev) obj then (db, [], none)
       else (dbPut db id (aset new0 "_rev" rev), [(id, aset new0 "_rev" rev)], none)) := by
  simp only [syncOne, hget, hok, hrev]

theorem syncOne_err (env : GitEnv) (db : DB) (id : String) (obj : Record) (e : SyncErr)
    (hget : dbGet db id = some obj)
    (herr : (update_record env obj).1 = Except.error e) :
    syncOne env db id = (db, [], some (BatchErr.sync e)) := by
  simp only [syncOne, hget, herr]

theorem syncOne_notFound (env : GitEnv) (db : DB) (j : String)
    (hget : dbGet db j = none) :
    syncOne env db j = (db, [], some BatchErr.notFound) := by
  simp only [syncOne, hget]

theorem syncOne_noRev (env : GitEnv) (db : DB) (j : String) (obj new0 : Record)
    (hget : dbGet db j = some obj)
    (hok : (update_record env obj).1 = Except.ok new0)
    (hrv : alook obj "_rev" = none) :
    syncOne env db j = (db, [], some BatchErr.keyError) := by
  simp only [syncOne, hget, hok, hrv]

theorem syncOne_cases (env : GitEnv) (db : DB) (j : String) :
    (∃ e, syncOne env db j = (db, [], some e))
    ∨ syncOne env db j = (db, [], none)
    ∨ (∃ doc, syncOne env db j = (dbPut db j doc, [(j, doc)], none)) := by
  cases hget : dbGet db j with
  | none => exact Or.inl ⟨BatchErr.notFound, syncOne_notFound env db j hget⟩
  | some obj2 =>
    cases hur : (update_record env obj2).1 with
    | error e => exact Or.inl ⟨BatchErr.sync e, syncOne_err env db j obj2 e hget hur⟩
    | ok new0 =>
      cases hrv : alook obj2 "_rev" with
      | none => exact Or.inl ⟨BatchErr.keyError, syncOne_noRev env db j obj2 new0 hget hur hrv⟩
      | some rev =>
        rw [syncOne_ok env db j obj2 new0 rev hget hur hrv]
        by_cases hdeq : deq (aset new0 "_rev" rev) obj2 = true
        · exact Or.inr (Or.inl (by rw [if_pos hdeq]))
        · exact Or.inr (Or.inr ⟨aset new0 "_rev" rev, by rw [if_neg hdeq]⟩)

theorem update_record_git (env : GitEnv) (obj repo : Record) (u b : String)
    (hrepo : alook obj "repository" = some (Val.obj repo))
    (htype : alook repo "type" = some (Val.str "git"))
    (hurl : alook repo "url" = some (Val.str u))
    (hbr : branchOf repo = some b) :
    update_record env obj =
      (match env.manifest u b with
       | none =>
         (Except.error SyncErr.manifestError,
          [SyncEffect.clone u b (env.cloneOk u b), SyncEffect.readManifest u b])
       | some info =>
         (Except.ok (dupdate obj info),
          [SyncEffect.clone u b (env.cloneOk u b), SyncEffect.readManifest u b])) := by
  simp only [update_record, hrepo, htype, hurl, hbr, if_pos rfl, if_true]

theorem update_record_cloneFail (env : GitEnv) (obj repo : Record) (u b : String)
    (hcons : GitEnv.Consistent env)
    (hrepo : alook obj "repository" = some (Val.obj repo))
    (htype : alook repo "type" = some (Val.str "git"))
    (hurl : alook repo "url" = some (Val.str u))
    (hbr : branchOf repo = some b)
    (hclone : env.cloneOk u b = false) :
    (update_record env obj).1 = Except.error SyncErr.manifestError := by
  rw [update_record_git env obj repo u b hrepo htype hurl hbr, hcons u b hclone]

theorem umtGo_ok_removed (env : GitEnv) :
    ∀ (l : List String) (db : DB) (ws : List (String × Record)),
      (umtGo env l db ws).err = none → (umtGo env l db ws).scratchRemoved = true := by
  intro l
  induction l with
  | nil => intro db ws _; rfl
  | cons j rest ih =>
    intro db ws h
    by_cases hs : startsWithUnderscore j = true
    · rw [umtGo, if_pos hs] at h ⊢
      exact ih db ws h
    · rcases hsy : syncOne env db j with ⟨db1, w, e⟩
      cases e with
      | some e0 =>
        rw [umtGo, if_neg hs, hsy] at h
        simp at h
      | none =>
        rw [umtGo, if_neg hs, hsy] at h ⊢
        exact ih db1 (ws ++ w) h

theorem umtGo_avoid (env : GitEnv) (id : String) (obj : Record)
    (herr : (update_record env obj).1 = Except.error SyncErr.manifestError) :
    ∀ (l : List String) (db : DB) (ws : List (String × Record)),
      dbGet db id = some obj →
      (∀ p ∈ ws, p.1 ≠ id) →
      ((∀ p ∈ (umtGo env l db ws).writes, p.1 ≠ id)
       ∧ dbGet (umtGo env l db ws).db id = some obj) := by
  intro l
  induction l with
  | nil => intro db ws hget hws; exact ⟨hws, hget⟩
  | cons j rest ih =>
    intro db ws hget hws
    by_cases hs : startsWithUnderscore j = true
    · rw [umtGo, if_pos hs]
      exact ih db ws hget hws
    · by_cases hj : j = id
      · subst hj
        have hsy := syncOne_err env db j obj SyncErr.manifestError hget herr
        rw [umtGo, if_neg hs, hsy]
        constructor
        · intro p hp
          exact hws p (by simpa using hp)
        · exact hget
      · rcases syncOne_cases env db j with ⟨e, hsy⟩ | hsy | ⟨doc, hsy⟩
        · rw [umtGo, if_neg hs, hsy]
          constructor
          · intro p hp
            exact hws p (by simpa using hp)
          · exact hget
        · rw [umtGo, if_neg hs, hsy]
          refine ih db (ws ++ []) hget ?_
          intro p hp
          exact hws p (by simpa using hp)
        · rw [umtGo, if_neg hs, hsy]
          refine ih (dbPut db j doc) (ws ++ [(j, doc)]) ?_ ?_
          · rw [dbGet_put_ne db j id doc (fun hh => hj hh.symm)]
            exact hget
          · intro p hp
            rcases List.mem_append.1 hp with h1 | h1
            · exact hws p h1
            · have : p = (j, doc) := by simpa using h1
              rw [this]
              exact hj

theorem loadItem_post (db : DB) (it : Record) (id : String)
    (hwf : dbHasRevs db) (hid : alook it "_id" = some (Val.str id)) :
    ∃ db1 w, loadItem db it = (db1, w, none)
      ∧ dbHasRevs db1
      ∧ (∃ st, dbGet db1 id = some st ∧ (alook st "_rev").isSome = true
          ∧ deqExcept "_rev" it st = true)
      ∧ (∀ j, j ≠ id → dbGet db1 j = dbGet db j) := by
  cases hget : dbGet db id with
  | none =>
    refine ⟨dbPut db id it, [(id, it)], loadItem_absent db it id hid hget,
      dbHasRevs_put db id it hwf,
      ⟨aset it "_rev" (revVal db.nextRev), dbGet_put_self db id it,
        by simp [alook_aset_self], ?_⟩,
      fun j hj => dbGet_put_ne db id j it hj⟩
    exact (deqExcept_iff _ _ _).2 fun k hk => (alook_aset_ne it "_rev" k _ hk).symm
  | some old =>
    have hrevS := dbHasRevs_get db id old hwf hget
    rcases Option.isSome_iff_exists.1 hrevS with ⟨rev, hrv⟩
    rw [loadItem_found db it id old rev hid hget hrv]
    by_cases hdeq : deq (aset it "_rev" rev) old = true
    · rw [if_pos hdeq]
      exact ⟨db, [], rfl, hwf,
        ⟨old, hget, hrevS, (deq_aset_key "_rev" rev it old hrv).1 hdeq⟩,
        fun j _ => rfl⟩
    · rw [if_neg hdeq]
      refine ⟨_, _, rfl, dbHasRevs_put db id _ hwf,
        ⟨aset (aset it "_rev" rev) "_rev" (revVal db.nextRev),
          dbGet_put_self db id _, by simp [alook_aset_self], ?_⟩,
        fun j hj => dbGet_put_ne db id j _ hj⟩
      refine (deqExcept_iff _ _ _).2 fun k hk => ?_
      rw [alook_aset_ne _ _ _ _ hk, alook_aset_ne _ _ _ _ hk]

theorem loadItem_skip (db : DB) (it : Record) (id : String) (st : Record)
    (hid : alook it "_id" = some (Val.str id))
    (hget : dbGet db id = some st)
    (hrev : (alook st "_rev").isSome = true)
    (heq : deqExcept "_rev" it st = true) :
    loadItem db it = (db, [], none) := by
  rcases Option.isSome_iff_exists.1 hrev with ⟨rev, hrv⟩
  rw [loadItem_found db it id st rev hid hget hrv,
      if_pos ((deq_aset_key "_rev" rev it st hrv).2 heq)]

theorem loadItems_post (its : List Record) (db : DB)
    (hwf : dbHasRevs db)
    (hids : ∀ it ∈ its, (itemId it).isSome = true)
    (hnd : (its.filterMap itemId).Nodup) :
    ∃ db1 w, loadItems db its = (db1, w, none)
      ∧ dbHasRevs db1
      ∧ (∀ it ∈ its, ∃ id st, itemId it = some id ∧ dbGet db1 id = some st
          ∧ (alook st "_rev").isSome = true ∧ deqExcept "_rev" it st = true)
      ∧ (∀ j, j ∉ its.filterMap itemId → dbGet db1 j = dbGet db j) := by
  induction its generalizing db with
  | nil => exact ⟨db, [], rfl, hwf, by simp, fun j _ => rfl⟩
  | cons it rest ih =>
    have hidh : (itemId it).isSome = true := hids it (List.mem_cons_self _ _)
    rcases Option.isSome_iff_exists.1 hidh with ⟨id, hid⟩
    have hfm : (it :: rest).filterMap itemId = id :: rest.filterMap itemId := by
      simp [List.filterMap_cons, hid]
    rw [hfm] at hnd
    have hnotin := (List.nodup_cons.1 hnd).1
    have hnd1 := (List.nodup_cons.1 hnd).2
    rcases loadItem_post db it id hwf (itemId_some it id hid) with
      ⟨db1, w1, hli, hwf1, ⟨st, hst, hstrev, hsteq⟩, hframe1⟩
    rcases ih db1 hwf1 (fun x hx => hids x (List.mem_cons_of_mem _ hx)) hnd1 with
      ⟨db2, w2, hlis, hwf2, hmatch, hframe2⟩
    refine ⟨db2, w1 ++ w2, ?_, hwf2, ?_, ?_⟩
    · simp only [loadItems, hli, hlis]
    · intro x hx
      rcases List.mem_cons.1 hx with rfl | hx2
      · exact ⟨id, st, hid, by rw [hframe2 id hnotin]; exact hst, hstrev, hsteq⟩
      · exact hmatch x hx2
    · intro j hj
      rw [hfm] at hj
      have hj1 : j ≠ id ∧ j ∉ rest.filterMap itemId := by
        simpa [List.mem_cons, not_or] using hj
      rw [hframe2 j hj1.2, hframe1 j hj1.1]

theorem loadItems_idem (its : List Record) (db : DB)
    (h : ∀ it ∈ its, ∃ id st, itemId it = some id ∧ dbGet db id = some st
        ∧ (alook st "_rev").isSome = true ∧ deqExcept "_rev" it st = true) :
    loadItems db its = (db, [], none) := by
  induction its with
  | nil => rfl
  | cons it rest ih =>
    rcases h it (List.mem_cons_self _ _) with ⟨id, st, hid, hget, hrev, heq⟩
    have hskip := loadItem_skip db it id st (itemId_some it id hid) hget hrev heq
    simp only [loadItems, hskip]
    rw [ih (fun x hx => h x (List.mem_cons_of_mem _ hx))]
    rfl

theorem serverWF_set (s : Server) (n : String) (db : DB)
    (hwf : serverWF s) (hdb : dbHasRevs db) : serverWF (serverSet s n db) := by
  intro q hq
  rcases mem_aset s n db q hq with h1 | h1
  · exact hwf q h1
  · rw [h1]
    exact hdb

theorem load_fixture_post (fx : List (String × List Record)) (s : Server)
    (hwf : serverWF s)
    (hnames : (fx.map Prod.fst).Nodup)
    (hdb : ∀ p ∈ fx, (serverGet s p.1).isSome = true)
    (hids : ∀ p ∈ fx, ∀ it ∈ p.2, (itemId it).isSome = true)
    (hnd : ∀ p ∈ fx, (p.2.filterMap itemId).Nodup) :
    ∃ s1 w, load_fixture s fx = (s1, w, none)
      ∧ serverWF s1
      ∧ (∀ p ∈ fx, ∃ db1, serverGet s1 p.1 = some db1
          ∧ ∀ it ∈ p.2, ∃ id st, itemId it = some id ∧ dbGet db1 id = some st
              ∧ (alook st "_rev").isSome = true ∧ deqExcept "_rev" it st = true)
      ∧ (∀ m, m ∉ fx.map Prod.fst → serverGet s1 m = serverGet s m) := by
  induction fx generalizing s with
  | nil => exact ⟨s, [], rfl, hwf, by simp, fun m _ => rfl⟩
  | cons p rest ih =>
    obtain ⟨n, its⟩ := p
    have hdbh : (serverGet s n).isSome = true := hdb (n, its) (List.mem_cons_self _ _)
    rcases Option.isSome_iff_exists.1 hdbh with ⟨db, hgetdb⟩
    have hdbwf : dbHasRevs db := hwf (n, db) (alook_mem s n db hgetdb)
    rcases loadItems_post its db hdbwf
        (hids (n, its) (List.mem_cons_self _ _)) (hnd (n, its) (List.mem_cons_self _ _)) with
      ⟨db1, w1, hload, hwf1, hmatch1, _⟩
    have hswf1 : serverWF (serverSet s n db1) := serverWF_set s n db1 hwf hwf1
    have hnames2 : (n :: rest.map Prod.fst).Nodup := by simpa using hnames
    have hnnotin := (List.nodup_cons.1 hnames2).1
    have hnames1 := (List.nodup_cons.1 hnames2).2
    have hdb2 : ∀ q ∈ rest, (serverGet (serverSet s n db1) q.1).isSome = true := by
      intro q hq
      by_cases hqn : q.1 = n
      · rw [serverGet, serverSet, hqn, alook_aset_self]
        rfl
      · rw [serverGet, serverSet, alook_aset_ne s n q.1 db1 hqn]
        exact hdb q (List.mem_cons_of_mem _ hq)
    rcases ih (serverSet s n db1) hswf1 hnames1 hdb2
        (fun q hq => hids q (List.mem_cons_of_mem _ hq))
        (fun q hq => hnd q (List.mem_cons_of_mem _ hq)) with
      ⟨s2, w2, hrest, hswf2, hmatch2, hframe2⟩
    refine ⟨s2, w1.map (fun q => (n, q.1, q.2)) ++ w2, ?_, hswf2, ?_, ?_⟩
    · simp only [load_fixture, hgetdb, hload, hrest]
    · intro q hq
      rcases List.mem_cons.1 hq with rfl | hq2
      · refine ⟨db1, ?_, hmatch1⟩
        rw [hframe2 n hnnotin, serverGet, serverSet, alook_aset_self]
      · exact hmatch2 q hq2
    · intro m hm
      have hm1 : m ≠ n ∧ m ∉ rest.map Prod.fst := by
        simpa [List.mem_cons, not_or] using hm
      rw [hframe2 m hm1.2]
      show alook (aset s n db1) m = alook s m
      exact alook_aset_ne s n m db1 hm1.1

theorem load_fixture_idem_aux (fx : List (String × List Record)) (s : Server)
    (h : ∀ p ∈ fx, ∃ db, serverGet s p.1 = some db
        ∧ ∀ it ∈ p.2, ∃ id st, itemId it = some id ∧ dbGet db id = some st
            ∧ (alook st "_rev").isSome = true ∧ deqExcept "_rev" it st = true) :
    load_fixture s fx = (s, [], none) := by
  induction fx with
  | nil => rfl
  | cons p rest ih =>
    obtain ⟨n, its⟩ := p
    rcases h (n, its) (List.mem_cons_self _ _) with ⟨db, hget, hmatch⟩
    have hli : loadItems db its = (db, [], none) := loadItems_idem its db hmatch
    have hset : serverSet s n db = s := aset_self_of_alook s n db hget
    simp only [load_fixture, hget, hli, hset]
    rw [ih (fun q hq => h q (List.mem_cons_of_mem _ hq))]
    rfl


/- Claim theorems. -/

/-- Claim C1, counterexample: a record whose manifest is successfully
read, where the manifest itself binds the identity and revision keys:
the merged record carries the manifest identity and revision, not the
input ones, so the manifest does override them in update_record. -/
theorem c1_manifest_overrides_identity :
    (update_record c1env c1obj).1
      = Except.ok
          [("_id", Val.str "evil"),
           ("repository", Val.obj [("type", Val.str "git"), ("url", Val.str "u")]),
           ("_rev", Val.str "bad")]
    ∧ alook c1obj "_id" = some (Val.str "m1")
    ∧ alook c1obj "_rev" = none := by
  refine ⟨rfl, rfl, rfl⟩

/-- Claim C1, amended: when the successfully read manifest contains
neither the identity nor the revision key, the merged record preserves
the identity and revision of the input; and independently of the
manifest content, the record written back by the update_module_types
loop body always carries the stored revision token, because the loop
restores it after the merge. -/
theorem c1_identity_preservation :
    (∀ (env : GitEnv) (obj repo info : Record) (u b : String),
      alook obj "repository" = some (Val.obj repo) →
      alook repo "type" = some (Val.str "git") →
      alook repo "url" = some (Val.str u) →
      branchOf repo = some b →
      env.manifest u b = some info →
      alook info "_id" = none →
      alook info "_rev" = none →
      ((update_record env obj).1 = Except.ok (dupdate obj info)
       ∧ alook (dupdate obj info) "_id" = alook obj "_id"
       ∧ alook (dupdate obj info) "_rev" = alook obj "_rev"))
    ∧ (∀ (env : GitEnv) (db : DB) (id : String) (obj : Record) (rev : Val),
        dbGet db id = some obj → alook obj "_rev" = some rev →
        ((syncOne env db id).2.1.all fun p => decide (alook p.2 "_rev" = some rev)) = true) := by
  constructor
  · intro env obj repo info u b hrepo htype hurl hbr hman hid hrev
    refine ⟨?_, alook_dupdate_none obj info "_id" hid,
      alook_dupdate_none obj info "_rev" hrev⟩
    rw [update_record_git env obj repo u b hrepo htype hurl hbr, hman]
  · intro env db id obj rev hget hrev
    cases hur : (update_record env obj).1 with
    | error e =>
      rw [syncOne_err env db id obj e hget hur]
      rfl
    | ok new0 =>
      rw [syncOne_ok env db id obj new0 rev hget hur hrev]
      by_cases hdeq : deq (aset new0 "_rev" rev) obj = true
      · rw [if_pos hdeq]
        rfl
      · rw [if_neg hdeq]
        simp [alook_aset_self]

/-- Claim C1, witness for the amended theorem at concrete inputs. -/
theorem c1_identity_preservation_witness :
    ((update_record c1envW c1objW).1 = Except.ok (dupdate c1objW [("version", Val.str "2")])
     ∧ alook (dupdate c1objW [("version", Val.str "2")]) "_id" = alook c1objW "_id"
     ∧ alook (dupdate c1objW [("version", Val.str "2")]) "_rev" = alook c1objW "_rev")
    ∧ ((syncOne c1envB c1dbW "m").2.1.all fun p =>
        decide (alook p.2 "_rev" = some (Val.str "r0"))) = true :=
  ⟨c1_identity_preservation.1 c1envW c1objW
      [("type", Val.str "git"), ("url", Val.str "u")] [("version", Val.str "2")]
      "u" "master" rfl rfl rfl rfl rfl rfl rfl,
   c1_identity_preservation.2 c1envB c1dbW "m"
      [("_id", Val.str "m"), ("_rev", Val.str "r0")] (Val.str "r0") rfl rfl⟩

/-- Claim C2: in the fixture loader, an incoming record whose content
equals the stored record up to the revision token produces no write, and
any write issued for a stored record carries the stored revision token;
the same holds for the update_module_types loop body on the record
produced by update_record. -/
theorem c2_content_equality_no_write :
    (∀ (db : DB) (it : Record) (id : String) (old : Record) (rev : Val),
      alook it "_id" = some (Val.str id) →
      dbGet db id = some old →
      alook old "_rev" = some rev →
      ((loadItem db it).2.2 = none
       ∧ ((loadItem db it).2.1 = [] ↔ deqExcept "_rev" it old = true)
       ∧ ((loadItem db it).2.1.all fun p => decide (alook p.2 "_rev" = some rev)) = true))
    ∧ (∀ (env : GitEnv) (db : DB) (id : String) (obj new0 : Record) (rev : Val),
        dbGet db id = some obj →
        (update_record env obj).1 = Except.ok new0 →
        alook obj "_rev" = some rev →
        (((syncOne env db id).2.1 = [] ↔ deqExcept "_rev" new0 obj = true)
         ∧ ((syncOne env db id).2.1.all fun p => decide (alook p.2 "_rev" = some rev)) = true)) := by
  constructor
  · intro db it id old rev hid hget hrev
    rw [loadItem_found db it id old rev hid hget hrev]
    by_cases hdeq : deq (aset it "_rev" rev) old = true
    · rw [if_pos hdeq]
      exact ⟨rfl, ⟨fun _ => (deq_aset_key "_rev" rev it old hrev).1 hdeq, fun _ => rfl⟩, rfl⟩
    · rw [if_neg hdeq]
      refine ⟨rfl, ⟨?_, ?_⟩, ?_⟩
      · intro hc
        exact absurd hc (List.cons_ne_nil _ _)
      · intro habs
        exact absurd ((deq_aset_key "_rev" rev it old hrev).2 habs) hdeq
      · simp [alook_aset_self]
  · intro env db id obj new0 rev hget hok hrev
    rw [syncOne_ok env db id obj new0 rev hget hok hrev]
    by_cases hdeq : deq (aset new0 "_rev" rev) obj = true
    · rw [if_pos hdeq]
      exact ⟨⟨fun _ => (deq_aset_key "_rev" rev new0 obj hrev).1 hdeq, fun _ => rfl⟩, rfl⟩
    · rw [if_neg hdeq]
      refine ⟨⟨?_, ?_⟩, ?_⟩
      · intro hc
        exact absurd hc (List.cons_ne_nil _ _)
      · intro habs
        exact absurd ((deq_aset_key "_rev" rev new0 obj hrev).2 habs) hdeq
      · simp [alook_aset_self]

/-- Claim C2, witness at concrete inputs: the fixture part on a record
equal to the stored one up to the revision token, the synchronizer part
on a stored record without repository field. -/
theorem c2_content_equality_no_write_witness :
    ((loadItem c2db c2it).2.2 = none
     ∧ ((loadItem c2db c2it).2.1 = [] ↔ deqExcept "_rev" c2it c2old = true)
     ∧ ((loadItem c2db c2it).2.1.all fun p =>
          decide (alook p.2 "_rev" = some (Val.str "r"))) = true)
    ∧ (((syncOne c2env c2dbB "b").2.1 = [] ↔ deqExcept "_rev" c2objB c2objB = true)
       ∧ ((syncOne c2env c2dbB "b").2.1.all fun p =>
            decide (alook p.2 "_rev" = some (Val.str "s"))) = true) :=
  ⟨c2_content_equality_no_write.1 c2db c2it "a" c2old (Val.str "r") rfl rfl rfl,
   c2_content_equality_no_write.2 c2env c2dbB "b" c2objB c2objB (Val.str "s") rfl rfl rfl⟩

/-- Claim C3, counterexample: a fixture whose list for one database
repeats the same identity with different content.  The first run
succeeds, yet rerunning the loader against the produced store still
issues writes, so a second run is not write-free for every fixture. -/
theorem c3_duplicate_id_not_idempotent :
    (load_fixture c3server c3fixture).2.2 = none
    ∧ (load_fixture (load_fixture c3server c3fixture).1 c3fixture).2.1 ≠ [] := by
  constructor
  · decide
  · decide

/-- Claim C3, amended: for a fixture whose database names are distinct
(a JSON object invariant), whose records carry string identities that
are distinct within each database list, against a server holding every
named database with every stored document carrying a revision token, the
first run succeeds and a second run with the same fixture against the
produced store issues zero writes and leaves the store unchanged. -/
theorem c3_second_run_zero_writes (s : Server) (fx : List (String × List Record))
    (hwf : serverWF s)
    (hnames : (fx.map Prod.fst).Nodup)
    (hdb : ∀ p ∈ fx, (serverGet s p.1).isSome = true)
    (hids : ∀ p ∈ fx, ∀ it ∈ p.2, (itemId it).isSome = true)
    (hnd : ∀ p ∈ fx, (p.2.filterMap itemId).Nodup) :
    (load_fixture s fx).2.2 = none
    ∧ load_fixture (load_fixture s fx).1 fx = ((load_fixture s fx).1, [], none) := by
  rcases load_fixture_post fx s hwf hnames hdb hids hnd with
    ⟨s1, w, hrun, _, hmatch, _⟩
  rw [hrun]
  exact ⟨rfl, load_fixture_idem_aux fx s1 hmatch⟩

/-- Claim C3, witness for the amended theorem at a concrete fixture. -/
theorem c3_second_run_zero_writes_witness :
    (load_fixture c3server c3fixtureW).2.2 = none
    ∧ load_fixture (load_fixture c3server c3fixtureW).1 c3fixtureW
        = ((load_fixture c3server c3fixtureW).1, [], none) :=
  c3_second_run_zero_writes c3server c3fixtureW
    (by decide) (by decide) (by decide) (by decide) (by decide)

/-- Claim C4, counterexample: a batch whose single record has a git
repository whose manifest cannot be read aborts with an uncaught error,
and the scratch directory is not removed on that exit path. -/
theorem c4_scratch_leak_on_failure :
    (update_module_types c4env c4db).err ≠ none
    ∧ (update_module_types c4env c4db).scratchRemoved = false := by
  constructor
  · decide
  · decide

/-- Claim C4, amended: the scratch directory is removed on every run of
update_module_types that terminates without an uncaught error; a run
that aborts early with an error leaks it. -/
theorem c4_scratch_removed_on_success (env : GitEnv) (db : DB)
    (h : (update_module_types env db).err = none) :
    (update_module_types env db).scratchRemoved = true :=
  umtGo_ok_removed env (db.docs.map Prod.fst) db [] h

/-- Claim C4, witness for the amended theorem: an error-free batch. -/
theorem c4_scratch_removed_on_success_witness :
    (update_module_types c4env (⟨[], 0⟩ : DB)).scratchRemoved = true :=
  c4_scratch_removed_on_success c4env ⟨[], 0⟩ (by decide)

/-- Claim C5: a record with no repository field, or whose repository
mapping carries a type other than the string git, is returned unchanged
by update_record, with no clone and no manifest read. -/
theorem c5_non_git_passthrough (env : GitEnv) (obj : Record) :
    (alook obj "repository" = none → update_record env obj = (Except.ok obj, []))
    ∧ (∀ repo t, alook obj "repository" = some (Val.obj repo) →
        alook repo "type" = some t → t ≠ Val.str "git" →
        update_record env obj = (Except.ok obj, [])) := by
  constructor
  · intro h
    simp only [update_record, h]
  · intro repo t hrepo htype hne
    simp only [update_record, hrepo, htype]
    rw [if_neg hne]

/-- Claim C5, witness at concrete records. -/
theorem c5_non_git_passthrough_witness :
    update_record c5env c5objA = (Except.ok c5objA, [])
    ∧ update_record c5env c5objB = (Except.ok c5objB, []) :=
  ⟨(c5_non_git_passthrough c5env c5objA).1 rfl,
   (c5_non_git_passthrough c5env c5objB).2
      [("type", Val.str "svn"), ("url", Val.str "u")] (Val.str "svn")
      rfl rfl (by decide)⟩

/-- Claim C6, counterexample: a parameter whose current value differs
and whose PUT is answered with a status other than 200 issues exactly
one write but is not followed by the mandated pause: the loop raises
before sleeping. -/
theorem c6_no_pause_on_failed_write :
    applyConfigItem (some "\"old\"") "v" 500
      = ([CfgEffect.put "\"v\""], some CfgErr.nameError)
    ∧ CfgEffect.sleep ∉ (applyConfigItem (some "\"old\"") "v" 500).1 := by
  constructor
  · decide
  · decide

/-- Claim C6, amended: a parameter already at the desired (quoted) value
issues no write and no pause; a differing parameter issues exactly one
write, and when the write is answered with status 200 it is followed by
the mandated pause. -/
theorem c6_config_apply (current : Option String) (value : String) (status : Int) :
    (current = some (desiredVal value) →
      applyConfigItem current value status = ([], none))
    ∧ (current ≠ some (desiredVal value) →
        ((applyConfigItem current value status).1.countP isPut = 1
         ∧ (status = 200 →
             applyConfigItem current value status
               = ([CfgEffect.put (desiredVal value), CfgEffect.sleep], none)))) := by
  constructor
  · intro h
    unfold applyConfigItem
    rw [if_pos h]
  · intro h
    constructor
    · unfold applyConfigItem
      rw [if_neg h]
      by_cases hs : status = 200
      · rw [if_pos hs]
        rfl
      · rw [if_neg hs]
        rfl
    · intro hs
      unfold applyConfigItem
      rw [if_neg h, if_pos hs]

/-- Claim C6, witness for the amended theorem at concrete inputs. -/
theorem c6_config_apply_witness :
    applyConfigItem (some "\"v\"") "v" 200 = ([], none)
    ∧ ((applyConfigItem (some "\"x\"") "v" 200).1.countP isPut = 1
       ∧ applyConfigItem (some "\"x\"") "v" 200
           = ([CfgEffect.put (desiredVal "v"), CfgEffect.sleep], none)) :=
  ⟨(c6_config_apply (some "\"v\"") "v" 200).1 (by decide),
   ⟨((c6_config_apply (some "\"x\"") "v" 200).2 (by decide)).1,
    ((c6_config_apply (some "\"x\"") "v" 200).2 (by decide)).2 rfl⟩⟩

/-- Claim C7: when the clone of the git repository of a stored record
fails, the manifest of its clone directory cannot be read, update_record
raises, and the update_module_types batch issues no write for that
record and leaves it stored unchanged (the batch aborts there, which the
spec leaves to the caller as an admissible error policy). -/
theorem c7_clone_failure_record_unchanged (env : GitEnv) (db : DB) (id : String)
    (obj repo : Record) (u b : String)
    (hcons : GitEnv.Consistent env)
    (hget : dbGet db id = some obj)
    (hrepo : alook obj "repository" = some (Val.obj repo))
    (htype : alook repo "type" = some (Val.str "git"))
    (hurl : alook repo "url" = some (Val.str u))
    (hbr : branchOf repo = some b)
    (hclone : env.cloneOk u b = false) :
    ((update_module_types env db).writes.all fun p => decide (p.1 ≠ id)) = true
    ∧ dbGet (update_module_types env db).db id = some obj := by
  have herr := update_record_cloneFail env obj repo u b hcons hrepo htype hurl hbr hclone
  have h := umtGo_avoid env id obj herr (db.docs.map Prod.fst) db [] hget
    (fun p hp => absurd hp (List.not_mem_nil p))
  refine ⟨?_, h.2⟩
  rw [List.all_eq_true]
  intro p hp
  exact decide_eq_true (h.1 p hp)

/-- Claim C7, witness at a concrete store whose single record points at
a repository whose clone fails. -/
theorem c7_clone_failure_record_unchanged_witness :
    ((update_module_types c7env c7db).writes.all fun p => decide (p.1 ≠ "k")) = true
    ∧ dbGet (update_module_types c7env c7db).db "k"
        = some [("_id", Val.str "k"), ("_rev", Val.str "r2"),
                ("repository", Val.obj [("type", Val.str "git"), ("url", Val.str "w")])] :=
  c7_clone_failure_record_unchanged c7env c7db "k"
    [("_id", Val.str "k"), ("_rev", Val.str "r2"),
     ("repository", Val.obj [("type", Val.str "git"), ("url", Val.str "w")])]
    [("type", Val.str "git"), ("url", Val.str "w")] "w" "master"
    (fun _ _ _ => rfl) rfl rfl rfl rfl rfl rfl

/-- Claim C8: behavior of the configuration loop at a failing write.
The first parameter differs from its desired value and its PUT answers
status 500: the loop issues that one PUT and then raises the uncaught
name error (the formatted message reads the undefined name res, and the
constructed exception object is never raised or printed), so the failure
is not reported and the second parameter is never processed. -/
theorem c8_failed_write_aborts_unreported :
    applyAllConfig [("s", "p", "v"), ("s", "q", "w")] (fun _ _ => none) (fun _ _ => 500)
      = ([InitEffect.putConfig "s" "p" "\"v\""], some CfgErr.nameError) := by
  decide

/-- Claim C9: when the stored local server url is set and differs from
the db_url argument, init fails with the conflict error and issues no
effect at all: no configuration write, no database creation, no design
document push, no replication, and no change to the stored url. -/
theorem c9_conflict_no_mutation (a : InitArgs) (allDbs : List String) (u : String)
    (hold : a.oldLocalUrl = some u) (hne : u ≠ a.dbUrl) :
    init a allDbs = ([], some InitErr.conflict) := by
  have hc : conflictCheck a.oldLocalUrl a.dbUrl = true := by
    rw [hold]
    simp [conflictCheck, hne]
  unfold init
  rw [if_pos hc]

/-- Claim C9, witness at a concrete conflicting configuration. -/
theorem c9_conflict_no_mutation_witness :
    init c9args ["environment", "recipe"] = ([], some InitErr.conflict) :=
  c9_conflict_no_mutation c9args ["environment", "recipe"] "http://a:5984" rfl (by decide)

/-- Claim C10: a record whose repository mapping lacks the type key, and
one whose repository is of type git but lacks the url key, both make
update_record raise an uncaught key lookup error instead of returning
the record unchanged: the guard reads the type and url keys
unconditionally once a repository field is present. -/
theorem c10_missing_keys_raise :
    (update_record c10env c10objA).1 = Except.error SyncErr.keyError
    ∧ (update_record c10env c10objB).1 = Except.error SyncErr.keyError := by
  constructor
  · rfl
  · rfl
